import Mathlib

/-!
Shallow embedding of the audioExport Go package (audioExport.go, wave.go,
aiff.go): streaming writers for WAVE/RIFF and AIFF uncompressed PCM files.

Modelling conventions, used throughout:

* The `*os.File` handle is externalized: the file content is a `List Nat`
  of byte values; a sequential `file.Write` appends, `file.WriteAt`
  overwrites at a byte offset (`writeAt` below).  I/O failures of the
  positioned header patches are injected through a `fail : Nat → Bool`
  oracle (offset ↦ does the WriteAt at that offset fail); a failing write
  is modelled all-or-nothing.  Writes into a `bytes.Buffer` cannot fail in
  Go, so the corresponding error returns in the source are dead paths and
  the buffer-building functions are total here.
* Machine integers are `Nat`/`Int` with explicit wrapping: `uint32` is a
  `Nat` reduced mod 2^32, `int32`/`int16` are `Int` reduced into the
  two's-complement range (`wrap32s`, `wrap16s`).
* `float64` samples are modelled as rationals.  Go float-to-int conversion
  truncates toward zero (`ratTrunc`); every sample value appearing in a
  theorem below is a dyadic rational whose product with the scale factor
  is below 2^53, so the IEEE-754 double computation in the Go code is
  exact and agrees with the rational model.  (For conversion results out
  of the target range Go's behaviour is implementation-dependent; no
  theorem below depends on such an input.)
* Go integer division truncates toward zero: `Int.tdiv`.  Go panics on
  division by zero while `Int.tdiv _ 0 = 0`; no claim below evaluates the
  one division in the source (`closeCommonChunk`) at bit depth 0.
-/

/-- Truncation of a rational toward zero: the semantics of a Go
float-to-integer conversion for in-range results. -/
def ratTrunc (q : ℚ) : Int := Int.tdiv q.num q.den

/-- Reduce an integer into the int32 two's-complement range, the effect of
Go int32 arithmetic. -/
def wrap32s (i : Int) : Int := (i + 2 ^ 31) % 2 ^ 32 - 2 ^ 31

/-- Reduce an integer into the int16 two's-complement range. -/
def wrap16s (i : Int) : Int := (i + 2 ^ 15) % 2 ^ 16 - 2 ^ 15

/-- Unsigned value of the low 8·w bits of an integer (two's complement),
the effect of a Go conversion to an unsigned w-byte type. -/
def toUnsigned (w : Nat) (i : Int) : Nat := (i % (2 ^ (8 * w))).toNat

/-- Little-endian 4-byte image of a value already below 2^32. -/
def le4 (m : Nat) : List Nat :=
  [m % 256, m / 256 % 256, m / 65536 % 256, m / 16777216 % 256]

/-- Big-endian 4-byte image of a value already below 2^32. -/
def be4 (m : Nat) : List Nat :=
  [m / 16777216 % 256, m / 65536 % 256, m / 256 % 256, m % 256]

/-- Little-endian 2-byte image of a value already below 2^16. -/
def le2 (m : Nat) : List Nat := [m % 256, m / 256 % 256]

/-- Big-endian 2-byte image of a value already below 2^16. -/
def be2 (m : Nat) : List Nat := [m / 256 % 256, m % 256]

/-- binary.Write of a uint32, little endian. -/
def u32LE (n : Nat) : List Nat := le4 (n % 2 ^ 32)

/-- binary.Write of a uint16, little endian. -/
def u16LE (n : Nat) : List Nat := le2 (n % 2 ^ 16)

/-- binary.Write of an int16, little endian (two's complement). -/
def i16LE (i : Int) : List Nat := le2 (toUnsigned 2 i)

/-- binary.Write of an int32, little endian (two's complement). -/
def i32LE (i : Int) : List Nat := le4 (toUnsigned 4 i)

/-- binary.Write of a uint32, big endian. -/
def u32BE (n : Nat) : List Nat := be4 (n % 2 ^ 32)

/-- binary.Write of an int16, big endian (two's complement). -/
def i16BE (i : Int) : List Nat := be2 (toUnsigned 2 i)

/-- binary.Write of an int32, big endian (two's complement). -/
def i32BE (i : Int) : List Nat := be4 (toUnsigned 4 i)

/-- os.File.WriteAt: overwrite `data` at byte offset `pos` (all patches in
the source stay inside the already-written header, so no extension case is
needed). -/
def writeAt (file : List Nat) (pos : Nat) (data : List Nat) : List Nat :=
  file.take pos ++ data ++ file.drop (pos + data.length)

/-- Decode the 4 little-endian bytes of a file at offset `pos`. -/
def readU32LE (file : List Nat) (pos : Nat) : Nat :=
  file.getD pos 0 + 256 * file.getD (pos + 1) 0 + 65536 * file.getD (pos + 2) 0
    + 16777216 * file.getD (pos + 3) 0

/-- Decode the 4 big-endian bytes of a file at offset `pos`. -/
def readU32BE (file : List Nat) (pos : Nat) : Nat :=
  16777216 * file.getD pos 0 + 65536 * file.getD (pos + 1) 0
    + 256 * file.getD (pos + 2) 0 + file.getD (pos + 3) 0

/-- audioDesc.go / audioExport.go: AudioDescription {NumChannels int16;
SampleRate uint32; BitsPerSample int16}. -/
structure AudioDescription where
  numChannels : Int
  sampleRate : Nat
  bitsPerSample : Int
deriving DecidableEq

/-- The error values of the package, named as in spec terminology; the Go
source returns errors.New values with the messages: channelCountMismatch =
mismatched stream count, channelLengthMismatch = channels of different
lengths, unsupportedBitDepth = invalid bit depth (writeFloatToBuffer),
unsupportedSampleRate = invalid sample rate (convertSampleRate), ioFailure
= any error surfaced by the os.File collaborator. -/
inductive AudioErr where
  | channelCountMismatch
  | channelLengthMismatch
  | unsupportedBitDepth
  | unsupportedSampleRate
  | ioFailure
deriving DecidableEq

/-- wave.go/aiff.go write8BitToBuffer: res := uint8(data*127 + 127). -/
def encode8 (v : ℚ) : Nat := toUnsigned 1 (ratTrunc (v * 127 + 127))

/-- wave.go/aiff.go write16BitToBuffer: res := int16(data * 32767). -/
def encode16 (v : ℚ) : Int := wrap16s (ratTrunc (v * 32767))

/-- wave.go/aiff.go write32BitToBuffer: res := int32(data * 2147483647). -/
def encode32 (v : ℚ) : Int := wrap32s (ratTrunc (v * 2147483647))

/-- wave.go: WaveFile {file *os.File; description AudioDescription;
bytesWritten uint32}; the file handle is externalized. -/
structure WaveFile where
  description : AudioDescription
  bytesWritten : Nat
deriving DecidableEq

/-- aiff.go: AiffFile {file *os.File; description AudioDescription;
bytesWritten int32}; note the signed counter, unlike WaveFile. -/
structure AiffFile where
  description : AudioDescription
  bytesWritten : Int
deriving DecidableEq

/-- wave.go writeFloatToBuffer: dispatch on BitsPerSample (BPS8/BPS16/BPS32
= 8/16/32), little endian; other depths return the invalid-bit-depth
error. -/
def WaveFile.writeFloatToBuffer (desc : AudioDescription) (v : ℚ) :
    Except AudioErr (List Nat) :=
  if desc.bitsPerSample = 8 then .ok [encode8 v]
  else if desc.bitsPerSample = 16 then .ok (i16LE (encode16 v))
  else if desc.bitsPerSample = 32 then .ok (i32LE (encode32 v))
  else .error .unsupportedBitDepth

/-- aiff.go writeFloatToBuffer: same dispatch, big endian. -/
def AiffFile.writeFloatToBuffer (desc : AudioDescription) (v : ℚ) :
    Except AudioErr (List Nat) :=
  if desc.bitsPerSample = 8 then .ok [encode8 v]
  else if desc.bitsPerSample = 16 then .ok (i16BE (encode16 v))
  else if desc.bitsPerSample = 32 then .ok (i32BE (encode32 v))
  else .error .unsupportedBitDepth

/-- The length-agreement loop of WriteChannels: chanLength is taken from
the first channel and every later channel is compared against it (an empty
channel list passes vacuously, as in the source where chanLength stays
-1). -/
def sameLengths : List (List ℚ) → Bool
  | [] => true
  | c :: cs => cs.all fun d => d.length == c.length

/-- The frame count of the encoding loop: the length of the first channel
(0 when no channels are supplied — in the source chanLength stays -1 and
the loop body never runs, equally producing zero frames). -/
def chanLength : List (List ℚ) → Nat
  | [] => 0
  | c :: _ => c.length

/-- Inner loop of WriteChannels: one frame, sample index `i` of every
channel in order.  Indexing is in range whenever `i` is below every
channel length, which the callers' checks guarantee; `getD` supplies a
default never used under that guarantee. -/
def encodeFrame (enc : ℚ → Except AudioErr (List Nat)) :
    List (List ℚ) → Nat → Except AudioErr (List Nat)
  | [], _ => .ok []
  | c :: cs, i =>
    match enc (c.getD i 0) with
    | .error e => .error e
    | .ok b =>
      match encodeFrame enc cs i with
      | .error e => .error e
      | .ok r => .ok (b ++ r)

/-- Outer loop of WriteChannels: frames 0 … n-1 appended in order. -/
def encodeUpTo (enc : ℚ → Except AudioErr (List Nat)) (chans : List (List ℚ)) :
    Nat → Except AudioErr (List Nat)
  | 0 => .ok []
  | n + 1 =>
    match encodeUpTo enc chans n with
    | .error e => .error e
    | .ok init =>
      match encodeFrame enc chans n with
      | .error e => .error e
      | .ok f => .ok (init ++ f)

/-- Buffer-building phase of WriteChannels, shared by both formats up to
the per-sample encoder: the channel-count check, then the length check,
then the two nested encoding loops.  Nothing reaches the file during this
phase. -/
def writeChannelsBuffer (enc : ℚ → Except AudioErr (List Nat))
    (desc : AudioDescription) (chans : List (List ℚ)) :
    Except AudioErr (List Nat) :=
  if (chans.length : Int) ≠ desc.numChannels then .error .channelCountMismatch
  else if sameLengths chans = false then .error .channelLengthMismatch
  else encodeUpTo enc chans (chanLength chans)

/-- wave.go WriteBytes: n, err := file.Write(bytes); bytesWritten +=
uint32(n).  A full write is assumed (n = len), the uint32 addition wraps
mod 2^32. -/
def WaveFile.WriteBytes (w : WaveFile) (file data : List Nat) :
    WaveFile × List Nat :=
  ({ w with bytesWritten := (w.bytesWritten + data.length % 2 ^ 32) % 2 ^ 32 },
    file ++ data)

/-- aiff.go WriteBytes: bytesWritten += int32(n), signed wrapping
arithmetic. -/
def AiffFile.WriteBytes (a : AiffFile) (file data : List Nat) :
    AiffFile × List Nat :=
  ({ a with bytesWritten := wrap32s (a.bytesWritten + wrap32s data.length) },
    file ++ data)

/-- wave.go WriteChannels: on a failed check or a failed encode the
function returns before WriteBytes, leaving the state and the file
untouched; on success the whole buffer is handed to WriteBytes. -/
def WaveFile.WriteChannels (w : WaveFile) (file : List Nat)
    (chans : List (List ℚ)) : Except AudioErr Unit × WaveFile × List Nat :=
  match writeChannelsBuffer (WaveFile.writeFloatToBuffer w.description)
      w.description chans with
  | .error e => (.error e, w, file)
  | .ok buf =>
    let p := w.WriteBytes file buf
    (.ok (), p.1, p.2)

/-- aiff.go WriteChannels, same shape as the wave variant. -/
def AiffFile.WriteChannels (a : AiffFile) (file : List Nat)
    (chans : List (List ℚ)) : Except AudioErr Unit × AiffFile × List Nat :=
  match writeChannelsBuffer (AiffFile.writeFloatToBuffer a.description)
      a.description chans with
  | .error e => (.error e, a, file)
  | .ok buf =>
    let p := a.WriteBytes file buf
    (.ok (), p.1, p.2)

/-- wave.go writeRIFFChunk: tag RIFF, placeholder size 0, format WAVE
(byte values of the ASCII tags). -/
def WaveFile.writeRIFFChunk : List Nat :=
  [82, 73, 70, 70] ++ u32LE 0 ++ [87, 65, 86, 69]

/-- wave.go writeFmtChunk: tag, size 16, PCM code 1, channels, sample
rate, byte rate, block align, bits per sample.  blockAlign is int16
arithmetic (NumChannels * BitsPerSample wraps, then exact division by 8
truncating toward zero); byteRate is uint32 arithmetic on the uint32 image
of blockAlign. -/
def WaveFile.writeFmtChunk (desc : AudioDescription) : List Nat :=
  let blockAlign := Int.tdiv (wrap16s (desc.numChannels * desc.bitsPerSample)) 8
  let byteRate := desc.sampleRate % 2 ^ 32 * toUnsigned 4 blockAlign % 2 ^ 32
  [102, 109, 116, 32] ++ u32LE 16 ++ u16LE 1 ++ i16LE desc.numChannels
    ++ u32LE desc.sampleRate ++ u32LE byteRate ++ i16LE blockAlign
    ++ i16LE desc.bitsPerSample

/-- wave.go startDataChunk: tag data, placeholder size 0. -/
def WaveFile.startDataChunk : List Nat := [100, 97, 116, 97] ++ u32LE 0

/-- wave.go writeHeader: RIFF chunk, fmt chunk, start of data chunk. -/
def WaveFile.writeHeader (desc : AudioDescription) : List Nat :=
  WaveFile.writeRIFFChunk ++ WaveFile.writeFmtChunk desc ++ WaveFile.startDataChunk

/-- wave.go Open: os.Create, build the header in a buffer, write it.  No
field of the description is validated; apart from external I/O (out of
scope here) the function cannot fail, so it always returns the fresh state
and the 44 header bytes as the file content. -/
def WaveFile.Open (desc : AudioDescription) :
    Except AudioErr (WaveFile × List Nat) :=
  .ok ({ description := desc, bytesWritten := 0 }, WaveFile.writeHeader desc)

/-- wave.go closeDataChunk payload: uint32 bytesWritten, patched at offset
40. -/
def WaveFile.closeDataChunkBytes (w : WaveFile) : List Nat :=
  u32LE w.bytesWritten

/-- wave.go closeRIFFChunk payload: uint32 bytesWritten+36, patched at
offset 4. -/
def WaveFile.closeRIFFChunkBytes (w : WaveFile) : List Nat :=
  u32LE (w.bytesWritten + 36)

/-- wave.go Close: patch the data-chunk size at offset 40, then the RIFF
size at offset 4, then file.Close.  A failed WriteAt makes Close return at
once — file.Close is never reached, recorded in the final Bool (handle
released?).  file.Close itself is assumed to succeed. -/
def WaveFile.Close (fail : Nat → Bool) (w : WaveFile) (file : List Nat) :
    Except AudioErr Unit × List Nat × Bool :=
  if fail 40 then (.error .ioFailure, file, false)
  else
    let f1 := writeAt file 40 w.closeDataChunkBytes
    if fail 4 then (.error .ioFailure, f1, false)
    else (.ok (), writeAt f1 4 w.closeRIFFChunkBytes, true)

/-- aiff.go convertSampleRate: fixed 10-byte (80-bit) extended-precision
images for the five supported rates, invalid-sample-rate error
otherwise. -/
def AiffFile.convertSampleRate (desc : AudioDescription) :
    Except AudioErr (List Nat) :=
  if desc.sampleRate = 32000 then .ok [64, 13, 250, 0, 0, 0, 0, 0, 0, 0]
  else if desc.sampleRate = 44100 then .ok [64, 14, 172, 68, 0, 0, 0, 0, 0, 0]
  else if desc.sampleRate = 48000 then .ok [64, 14, 187, 128, 0, 0, 0, 0, 0, 0]
  else if desc.sampleRate = 96000 then .ok [64, 15, 187, 128, 0, 0, 0, 0, 0, 0]
  else if desc.sampleRate = 192000 then .ok [64, 16, 187, 128, 0, 0, 0, 0, 0, 0]
  else .error .unsupportedSampleRate

/-- aiff.go writeContainerChunk: tag FORM, placeholder int32 size 0,
format AIFF. -/
def AiffFile.writeContainerChunk : List Nat :=
  [70, 79, 82, 77] ++ i32BE 0 ++ [65, 73, 70, 70]

/-- aiff.go writeCommonChunk: tag COMM, size 18, channels, placeholder
sample-frame count 0, bits per sample, 80-bit sample rate; fails exactly
when convertSampleRate fails. -/
def AiffFile.writeCommonChunk (desc : AudioDescription) :
    Except AudioErr (List Nat) :=
  match AiffFile.convertSampleRate desc with
  | .error e => .error e
  | .ok sr =>
    .ok ([67, 79, 77, 77] ++ i32BE 18 ++ i16BE desc.numChannels ++ u32BE 0
      ++ i16BE desc.bitsPerSample ++ sr)

/-- aiff.go startDataChunk: tag SSND, placeholder int32 size 0, offset 0,
block size 0. -/
def AiffFile.startDataChunk : List Nat :=
  [83, 83, 78, 68] ++ i32BE 0 ++ u32BE 0 ++ u32BE 0

/-- aiff.go writeHeader: container chunk, common chunk, start of data
chunk. -/
def AiffFile.writeHeader (desc : AudioDescription) :
    Except AudioErr (List Nat) :=
  match AiffFile.writeCommonChunk desc with
  | .error e => .error e
  | .ok comm =>
    .ok (AiffFile.writeContainerChunk ++ comm ++ AiffFile.startDataChunk)

/-- aiff.go Open: os.Create, build the header in a buffer, write it.  The
only non-I/O failure is convertSampleRate inside writeCommonChunk; the
buffer is discarded on failure, so nothing is written to the file then. -/
def AiffFile.Open (desc : AudioDescription) :
    Except AudioErr (AiffFile × List Nat) :=
  match AiffFile.writeHeader desc with
  | .error e => .error e
  | .ok h => .ok ({ description := desc, bytesWritten := 0 }, h)

/-- aiff.go closeDataChunk payload: int32 bytesWritten+8, patched at
offset 42. -/
def AiffFile.closeDataChunkBytes (a : AiffFile) : List Nat :=
  i32BE (wrap32s (a.bytesWritten + 8))

/-- aiff.go closeCommonChunk frame count: uint32(bytesWritten /
int32(BitsPerSample)) — Go int32 division truncates toward zero.  Note
the divisor is the bit depth itself, not bytes per sample. -/
def AiffFile.numSampleFrames (a : AiffFile) : Nat :=
  toUnsigned 4 (Int.tdiv a.bytesWritten a.description.bitsPerSample)

/-- aiff.go closeCommonChunk payload, patched at offset 22. -/
def AiffFile.closeCommonChunkBytes (a : AiffFile) : List Nat :=
  u32BE a.numSampleFrames

/-- aiff.go closeContainerChunk payload: int32 bytesWritten+46, patched at
offset 4. -/
def AiffFile.closeContainerChunkBytes (a : AiffFile) : List Nat :=
  i32BE (wrap32s (a.bytesWritten + 46))

/-- aiff.go Close: patch the SSND size at 42, the frame count at 22, the
FORM size at 4, then file.Close.  As in the wave variant, a failed WriteAt
returns at once and the handle is not released. -/
def AiffFile.Close (fail : Nat → Bool) (a : AiffFile) (file : List Nat) :
    Except AudioErr Unit × List Nat × Bool :=
  if fail 42 then (.error .ioFailure, file, false)
  else
    let f1 := writeAt file 42 a.closeDataChunkBytes
    if fail 22 then (.error .ioFailure, f1, false)
    else
      let f2 := writeAt f1 22 a.closeCommonChunkBytes
      if fail 4 then (.error .ioFailure, f2, false)
      else (.ok (), writeAt f2 4 a.closeContainerChunkBytes, true)

/-- Counter evolution of a sequence of AIFF WriteBytes calls, abstracted
to the per-call byte counts: exactly the bytesWritten update of
AiffFile.WriteBytes folded from a freshly opened state. -/
def aiffCounterRun (sizes : List Nat) : Int :=
  sizes.foldl (fun (acc : Int) (n : Nat) => wrap32s (acc + wrap32s n)) 0

/-- Counter evolution of a sequence of WAVE WriteBytes calls, abstracted
to the per-call byte counts. -/
def waveCounterRun (sizes : List Nat) : Nat :=
  sizes.foldl (fun acc n => (acc + n % 2 ^ 32) % 2 ^ 32) 0

/-- End-to-end run for the spec's WAVE example: open with {2, 48000, 16},
one WriteChannels call with frames left=0.5 right=-0.5, close with no I/O
failures; result is the final file content. -/
def c5run : Except AudioErr (List Nat) :=
  match WaveFile.Open ⟨2, 48000, 16⟩ with
  | .error e => .error e
  | .ok (w0, f0) =>
    match WaveFile.WriteChannels w0 f0 [[1 / 2], [-(1 / 2)]] with
    | (.error e, _, _) => .error e
    | (.ok _, w1, f1) =>
      match WaveFile.Close (fun _ => false) w1 f1 with
      | (.error e, _, _) => .error e
      | (.ok _, f2, _) => .ok f2

/-- A positioned write inside the file keeps the length. -/
theorem length_writeAt (f d : List Nat) (p : Nat) (h : p + d.length ≤ f.length) :
    (writeAt f p d).length = f.length := by
  simp only [writeAt, List.length_append, List.length_take, List.length_drop]
  omega

/-- Reading inside the patched range of a positioned write yields the
patch bytes. -/
theorem getD_writeAt (f d : List Nat) (p k : Nat) (hk : k < d.length)
    (h : p + d.length ≤ f.length) :
    (writeAt f p d).getD (p + k) 0 = d.getD k 0 := by
  unfold writeAt
  rw [List.append_assoc]
  rw [List.getD_append_right _ _ _ _ (by simp only [List.length_take]; omega)]
  rw [List.getD_append _ _ _ _ (by simp only [List.length_take]; omega)]
  congr 1
  simp only [List.length_take]
  omega

/-- Little-endian 4-byte round trip through a positioned write. -/
theorem readU32LE_writeAt_le4 (f : List Nat) (p m : Nat) (hm : m < 2 ^ 32)
    (h : p + 4 ≤ f.length) :
    readU32LE (writeAt f p (le4 m)) p = m := by
  unfold readU32LE
  have h0 := getD_writeAt f (le4 m) p 0 (by simp [le4])
    (by simp only [le4, List.length_cons, List.length_nil]; omega)
  have h1 := getD_writeAt f (le4 m) p 1 (by simp [le4])
    (by simp only [le4, List.length_cons, List.length_nil]; omega)
  have h2 := getD_writeAt f (le4 m) p 2 (by simp [le4])
    (by simp only [le4, List.length_cons, List.length_nil]; omega)
  have h3 := getD_writeAt f (le4 m) p 3 (by simp [le4])
    (by simp only [le4, List.length_cons, List.length_nil]; omega)
  simp only [Nat.add_zero] at h0
  rw [h0, h1, h2, h3]
  simp only [le4, List.getD_cons_zero, List.getD_cons_succ]
  omega

/-- Big-endian 4-byte round trip through a positioned write. -/
theorem readU32BE_writeAt_be4 (f : List Nat) (p m : Nat) (hm : m < 2 ^ 32)
    (h : p + 4 ≤ f.length) :
    readU32BE (writeAt f p (be4 m)) p = m := by
  unfold readU32BE
  have h0 := getD_writeAt f (be4 m) p 0 (by simp [be4])
    (by simp only [be4, List.length_cons, List.length_nil]; omega)
  have h1 := getD_writeAt f (be4 m) p 1 (by simp [be4])
    (by simp only [be4, List.length_cons, List.length_nil]; omega)
  have h2 := getD_writeAt f (be4 m) p 2 (by simp [be4])
    (by simp only [be4, List.length_cons, List.length_nil]; omega)
  have h3 := getD_writeAt f (be4 m) p 3 (by simp [be4])
    (by simp only [be4, List.length_cons, List.length_nil]; omega)
  simp only [Nat.add_zero] at h0
  rw [h0, h1, h2, h3]
  simp only [be4, List.getD_cons_zero, List.getD_cons_succ]
  omega

/-- Signed 32-bit wrapping preserves the residue mod 2^32. -/
theorem wrap32s_emod (x : Int) : wrap32s x % 2 ^ 32 = x % 2 ^ 32 := by
  unfold wrap32s
  omega

/-- wrap32s is idempotent on the left of an addition. -/
theorem wrap32s_add_left (x y : Int) : wrap32s (wrap32s x + y) = wrap32s (x + y) := by
  unfold wrap32s
  omega

/-- wrap32s is idempotent on the right of an addition. -/
theorem wrap32s_add_right (x y : Int) : wrap32s (x + wrap32s y) = wrap32s (x + y) := by
  unfold wrap32s
  omega

/-- Folding the AIFF counter update over per-call byte counts computes the
wrapped total. -/
theorem aiffFold (sizes : List Nat) (acc : Int) :
    sizes.foldl (fun (acc : Int) (n : Nat) => wrap32s (acc + wrap32s n)) (wrap32s acc)
      = wrap32s (acc + (sizes.sum : Int)) := by
  induction sizes generalizing acc with
  | nil => simp
  | cons n ns ih =>
    simp only [List.foldl_cons]
    have hinit : wrap32s (wrap32s acc + wrap32s (n : Int)) = wrap32s (acc + (n : Int)) := by
      rw [wrap32s_add_left, wrap32s_add_right]
    rw [hinit, ih (acc + (n : Int)), List.sum_cons]
    congr 1
    push_cast
    ring

/-- Folding the WAVE counter update over per-call byte counts computes the
total mod 2^32. -/
theorem waveFold (sizes : List Nat) (acc : Nat) :
    sizes.foldl (fun acc n => (acc + n % 2 ^ 32) % 2 ^ 32) (acc % 2 ^ 32)
      = (acc + sizes.sum) % 2 ^ 32 := by
  induction sizes generalizing acc with
  | nil => simp
  | cons n ns ih =>
    simp only [List.foldl_cons]
    have hstep : (acc % 2 ^ 32 + n % 2 ^ 32) % 2 ^ 32 = (acc + n) % 2 ^ 32 := by omega
    rw [hstep, ih (acc + n), List.sum_cons]
    omega

/-- AIFF Open succeeds exactly on the five table sample rates. -/
theorem aiffOpen_isOk (desc : AudioDescription) :
    (AiffFile.Open desc).isOk = true ↔
      desc.sampleRate = 32000 ∨ desc.sampleRate = 44100 ∨ desc.sampleRate = 48000
        ∨ desc.sampleRate = 96000 ∨ desc.sampleRate = 192000 := by
  unfold AiffFile.Open AiffFile.writeHeader AiffFile.writeCommonChunk
    AiffFile.convertSampleRate
  split_ifs with h1 h2 h3 h4 h5 <;> simp_all [Except.isOk, Except.toBool]

/-- AIFF Open fails with the unsupported-sample-rate error on every other
rate. -/
theorem aiffOpen_err (desc : AudioDescription)
    (h : ¬ (desc.sampleRate = 32000 ∨ desc.sampleRate = 44100 ∨ desc.sampleRate = 48000
      ∨ desc.sampleRate = 96000 ∨ desc.sampleRate = 192000)) :
    AiffFile.Open desc = .error .unsupportedSampleRate := by
  unfold AiffFile.Open AiffFile.writeHeader AiffFile.writeCommonChunk
    AiffFile.convertSampleRate
  split_ifs with h1 h2 h3 h4 h5 <;> simp_all

/-- The WAVE header is 44 bytes for every description. -/
theorem waveHeader_length (desc : AudioDescription) :
    (WaveFile.writeHeader desc).length = 44 := by
  simp [WaveFile.writeHeader, WaveFile.writeRIFFChunk, WaveFile.writeFmtChunk,
    WaveFile.startDataChunk, u32LE, u16LE, i16LE, le4, le2]

/-- The unsigned image of a wrapped int32 is its residue mod 2^32. -/
theorem toUnsigned4_wrap32s (x : Int) :
    toUnsigned 4 (wrap32s x) = (x % 2 ^ 32).toNat := by
  unfold toUnsigned wrap32s
  norm_num
  omega

/-- C1 (code_bug evidence): closing the AIFF common chunk after 32 payload
bytes of 16-bit audio patches the sample-frame field at offset 22 with
totalBytes / bitsPerSample = 2, not with totalBytes / (bitsPerSample / 8)
= 16 as the claim (and the field, which the source itself documents as the
number of sample frames) requires. -/
theorem C1_close_patches_bytes_div_bits :
    readU32BE ((AiffFile.Close (fun _ => false)
      { description := { numChannels := 1, sampleRate := 48000, bitsPerSample := 16 },
        bytesWritten := 32 } (List.replicate 86 0)).2.1) 22 = 2
    ∧ (2 : Nat) ≠ 32 / (16 / 8)
    ∧ AiffFile.numSampleFrames
        { description := { numChannels := 1, sampleRate := 48000, bitsPerSample := 16 },
          bytesWritten := 32 } = 2 := by
  refine ⟨rfl, by decide, rfl⟩

/-- C2 counterexample: a description with zero channels and unsupported
bit depth 12 is not rejected by the WAVE writer at open time — Open
succeeds and 44 header bytes are written. -/
theorem C2_cex :
    (WaveFile.Open { numChannels := 0, sampleRate := 48000, bitsPerSample := 12 }).isOk
        = true
    ∧ (WaveFile.writeHeader
        { numChannels := 0, sampleRate := 48000, bitsPerSample := 12 }).length = 44 :=
  ⟨rfl, rfl⟩

/-- C2 amended: neither writer validates channel count or bit depth at
open time.  WAVE Open succeeds for every description, emitting the 44-byte
header; AIFF Open succeeds exactly when the sample rate is one of the five
table rates, independent of channels and bit depth; an unsupported bit
depth is rejected only later by WriteChannels, and zero channels is never
rejected. -/
theorem C2_no_open_validation (desc : AudioDescription) (n : Nat) (file : List Nat) :
    (WaveFile.Open desc).isOk = true
    ∧ (WaveFile.writeHeader desc).length = 44
    ∧ ((AiffFile.Open desc).isOk = true ↔
        desc.sampleRate = 32000 ∨ desc.sampleRate = 44100 ∨ desc.sampleRate = 48000
          ∨ desc.sampleRate = 96000 ∨ desc.sampleRate = 192000)
    ∧ (desc.numChannels = 1 → desc.bitsPerSample ≠ 8 → desc.bitsPerSample ≠ 16 →
        desc.bitsPerSample ≠ 32 →
        WaveFile.WriteChannels ⟨desc, n⟩ file [[0]]
          = (.error .unsupportedBitDepth, ⟨desc, n⟩, file)) := by
  refine ⟨rfl, waveHeader_length desc, aiffOpen_isOk desc, ?_⟩
  intro h1 h8 h16 h32
  simp [WaveFile.WriteChannels, writeChannelsBuffer, h1, sameLengths, chanLength,
    encodeUpTo, encodeFrame, WaveFile.writeFloatToBuffer, h8, h16, h32]

/-- C2 witness: a description with one channel and bit depth 12 passes
open but fails at WriteChannels with the bit-depth error. -/
theorem C2_no_open_validation_witness :
    WaveFile.WriteChannels ⟨⟨1, 48000, 12⟩, 0⟩ [] [[0]]
      = (.error .unsupportedBitDepth, ⟨⟨1, 48000, 12⟩, 0⟩, []) :=
  (C2_no_open_validation ⟨1, 48000, 12⟩ 0 []).2.2.2 rfl (by decide) (by decide) (by decide)

/-- Evaluation of the 16-bit encoder at 1.0. -/
theorem encode16_one : encode16 1 = 32767 := by
  have hn : ((1 : ℚ) * 32767).num = 32767 := by norm_num
  have hd : ((1 : ℚ) * 32767).den = 1 := by norm_num
  unfold encode16 ratTrunc
  rw [hn, hd]
  decide

/-- Evaluation of the 16-bit encoder at -1.0. -/
theorem encode16_neg_one : encode16 (-1) = -32767 := by
  have hn : ((-1 : ℚ) * 32767).num = -32767 := by norm_num
  have hd : ((-1 : ℚ) * 32767).den = 1 := by norm_num
  unfold encode16 ratTrunc
  rw [hn, hd]
  decide

/-- Evaluation of the 16-bit encoder at 0.5. -/
theorem encode16_half : encode16 (1 / 2) = 16383 := by
  have hn : ((1 / 2 : ℚ) * 32767).num = 32767 := by norm_num
  have hd : ((1 / 2 : ℚ) * 32767).den = 2 := by norm_num
  unfold encode16 ratTrunc
  rw [hn, hd]
  decide

/-- Evaluation of the 16-bit encoder at -0.5. -/
theorem encode16_neg_half : encode16 (-(1 / 2)) = -16383 := by
  have hn : ((-(1 / 2) : ℚ) * 32767).num = -32767 := by norm_num
  have hd : ((-(1 / 2) : ℚ) * 32767).den = 2 := by norm_num
  unfold encode16 ratTrunc
  rw [hn, hd]
  decide

/-- Evaluation of the 16-bit encoder at 0. -/
theorem encode16_zero : encode16 0 = 0 := by
  have hn : ((0 : ℚ) * 32767).num = 0 := by norm_num
  have hd : ((0 : ℚ) * 32767).den = 1 := by norm_num
  unfold encode16 ratTrunc
  rw [hn, hd]
  decide

/-- C3 counterexample: the Go conversion truncates toward zero, so the
value -1.0 encodes to -32767 (not -32768 as claimed), and 0.5 encodes to
16383 where round(0.5 × 32767) = 16384. -/
theorem C3_cex :
    encode16 (-1) = -32767 ∧ ((-32767 : Int) ≠ -32768)
    ∧ encode16 (1 / 2) = 16383 ∧ ((16383 : Int) ≠ 16384) :=
  ⟨encode16_neg_one, by decide, encode16_half, by decide⟩

/-- C3 amended: the 16-bit encoder maps v to v × 32767 truncated toward
zero (not rounded), kept in 16 bits; v = 1.0 encodes to 32767 and v = -1.0
encodes to -32767, with 0.5 ↦ 16383, -0.5 ↦ -16383 and 0 ↦ 0. -/
theorem C3_truncating_encoder :
    encode16 1 = 32767 ∧ encode16 (-1) = -32767 ∧ encode16 (1 / 2) = 16383
    ∧ encode16 (-(1 / 2)) = -16383 ∧ encode16 0 = 0 :=
  ⟨encode16_one, encode16_neg_one, encode16_half, encode16_neg_half, encode16_zero⟩

/-- C4 counterexample: closing a WAVE file with zero payload bytes patches
the container size field at offset 4 with 36 (= totalBytes + 36), not 44
as the claim states for the WAVE format. -/
theorem C4_cex :
    readU32LE ((WaveFile.Close (fun _ => false) ⟨⟨2, 48000, 16⟩, 0⟩
      (List.replicate 44 0)).2.1) 4 = 36
    ∧ (36 : Nat) ≠ 0 + 44 :=
  ⟨rfl, by decide⟩

/-- With no injected I/O failure, WAVE Close performs the two patches and
releases the handle. -/
theorem waveClose_noFail (w : WaveFile) (fw : List Nat) :
    WaveFile.Close (fun _ => false) w fw
      = (.ok (), writeAt (writeAt fw 40 w.closeDataChunkBytes) 4
          w.closeRIFFChunkBytes, true) := rfl

/-- With no injected I/O failure, AIFF Close performs the three patches
and releases the handle. -/
theorem aiffClose_noFail (a : AiffFile) (fa : List Nat) :
    AiffFile.Close (fun _ => false) a fa
      = (.ok (), writeAt (writeAt (writeAt fa 42 a.closeDataChunkBytes) 22
          a.closeCommonChunkBytes) 4 a.closeContainerChunkBytes, true) := rfl

/-- C4 amended: at close the outer container size field is patched with
totalBytes + 36 for the WAVE format (the spec table's own value; the file
has 44 bytes of overhead but the RIFF size field excludes its first 8
bytes) and totalBytes + 46 for the AIFF format, for every run reaching
close. -/
theorem C4_container_overhead (w : WaveFile) (a : AiffFile) (fw fa : List Nat)
    (hw : 44 ≤ fw.length) (ha : 54 ≤ fa.length) :
    readU32LE ((WaveFile.Close (fun _ => false) w fw).2.1) 4
        = (w.bytesWritten + 36) % 2 ^ 32
    ∧ readU32BE ((AiffFile.Close (fun _ => false) a fa).2.1) 4
        = ((a.bytesWritten + 46) % 2 ^ 32).toNat := by
  rw [waveClose_noFail, aiffClose_noFail]
  constructor
  · have hl1 : (writeAt fw 40 w.closeDataChunkBytes).length = fw.length := by
      apply length_writeAt
      simp only [WaveFile.closeDataChunkBytes, u32LE, le4, List.length_cons, List.length_nil]
      omega
    have := readU32LE_writeAt_le4 (writeAt fw 40 w.closeDataChunkBytes) 4
      ((w.bytesWritten + 36) % 2 ^ 32) (by omega) (by omega)
    simpa [WaveFile.closeRIFFChunkBytes, u32LE] using this
  · have hl1 : (writeAt fa 42 a.closeDataChunkBytes).length = fa.length := by
      apply length_writeAt
      simp only [AiffFile.closeDataChunkBytes, i32BE, be4, List.length_cons, List.length_nil]
      omega
    have hl2 : (writeAt (writeAt fa 42 a.closeDataChunkBytes) 22
        a.closeCommonChunkBytes).length = fa.length := by
      rw [← hl1]
      apply length_writeAt
      simp only [AiffFile.closeCommonChunkBytes, u32BE, be4, List.length_cons, List.length_nil]
      omega
    have hm : toUnsigned 4 (wrap32s (a.bytesWritten + 46))
        = ((a.bytesWritten + 46) % 2 ^ 32).toNat := toUnsigned4_wrap32s _
    have := readU32BE_writeAt_be4 (writeAt (writeAt fa 42 a.closeDataChunkBytes) 22
      a.closeCommonChunkBytes) 4 (toUnsigned 4 (wrap32s (a.bytesWritten + 46)))
      (by unfold toUnsigned; omega) (by omega)
    simpa [AiffFile.closeContainerChunkBytes, i32BE, hm] using this

/-- Reading at an offset entirely past a positioned write is unaffected by
it. -/
theorem getD_writeAt_ge (f d : List Nat) (p k : Nat) (hk : p + d.length ≤ k)
    (h : p + d.length ≤ f.length) :
    (writeAt f p d).getD k 0 = f.getD k 0 := by
  unfold writeAt
  rw [List.append_assoc]
  rw [List.getD_append_right _ _ _ _ (by simp only [List.length_take]; omega)]
  rw [List.getD_append_right _ _ _ _ (by simp only [List.length_take]; omega)]
  have hdrop : (f.drop (p + d.length)).getD (k - (f.take p).length - d.length) 0
      = f.getD (p + d.length + (k - (f.take p).length - d.length)) 0 := by
    simp only [List.getD_eq_getElem?_getD, List.getElem?_drop]
  rw [hdrop]
  congr 1
  simp only [List.length_take]
  omega

/-- A 4-byte read entirely past a positioned write is unaffected by it. -/
theorem readU32LE_writeAt_ge (f d : List Nat) (p q : Nat) (hq : p + d.length ≤ q)
    (h : p + d.length ≤ f.length) :
    readU32LE (writeAt f p d) q = readU32LE f q := by
  unfold readU32LE
  rw [getD_writeAt_ge f d p q hq h, getD_writeAt_ge f d p (q + 1) (by omega) h,
    getD_writeAt_ge f d p (q + 2) (by omega) h, getD_writeAt_ge f d p (q + 3) (by omega) h]

/-- All channels of equal length pass the length-agreement check. -/
theorem sameLengths_of_all (chans : List (List ℚ)) (L : Nat)
    (h : ∀ c ∈ chans, c.length = L) : sameLengths chans = true := by
  cases chans with
  | nil => rfl
  | cons c cs =>
    simp only [sameLengths, List.all_eq_true, beq_iff_eq]
    intro d hd
    rw [h d (List.mem_cons_of_mem _ hd), h c (List.mem_cons_self _ _)]

/-- A supported bit depth encodes every sample into bitsPerSample/8 bytes
(WAVE, little endian). -/
theorem waveFloat_shape (desc : AudioDescription)
    (hb : desc.bitsPerSample = 8 ∨ desc.bitsPerSample = 16 ∨ desc.bitsPerSample = 32) :
    ∀ v : ℚ, ∃ b, WaveFile.writeFloatToBuffer desc v = .ok b
      ∧ b.length = (Int.tdiv desc.bitsPerSample 8).toNat := by
  intro v
  rcases hb with h | h | h
  · exact ⟨[encode8 v], by simp [WaveFile.writeFloatToBuffer, h], by rw [h]; rfl⟩
  · exact ⟨i16LE (encode16 v), by simp [WaveFile.writeFloatToBuffer, h], by rw [h]; rfl⟩
  · exact ⟨i32LE (encode32 v), by simp [WaveFile.writeFloatToBuffer, h], by rw [h]; rfl⟩

/-- A supported bit depth encodes every sample into bitsPerSample/8 bytes
(AIFF, big endian). -/
theorem aiffFloat_shape (desc : AudioDescription)
    (hb : desc.bitsPerSample = 8 ∨ desc.bitsPerSample = 16 ∨ desc.bitsPerSample = 32) :
    ∀ v : ℚ, ∃ b, AiffFile.writeFloatToBuffer desc v = .ok b
      ∧ b.length = (Int.tdiv desc.bitsPerSample 8).toNat := by
  intro v
  rcases hb with h | h | h
  · exact ⟨[encode8 v], by simp [AiffFile.writeFloatToBuffer, h], by rw [h]; rfl⟩
  · exact ⟨i16BE (encode16 v), by simp [AiffFile.writeFloatToBuffer, h], by rw [h]; rfl⟩
  · exact ⟨i32BE (encode32 v), by simp [AiffFile.writeFloatToBuffer, h], by rw [h]; rfl⟩

/-- One interleaved frame has one encoded sample per channel. -/
theorem encodeFrame_ok (enc : ℚ → Except AudioErr (List Nat)) (m : Nat)
    (henc : ∀ v : ℚ, ∃ b, enc v = .ok b ∧ b.length = m) :
    ∀ (chans : List (List ℚ)) (i : Nat),
      ∃ fr, encodeFrame enc chans i = .ok fr ∧ fr.length = chans.length * m := by
  intro chans
  induction chans with
  | nil => exact fun i => ⟨[], rfl, by simp⟩
  | cons c cs ih =>
    intro i
    obtain ⟨b, hb, hbl⟩ := henc (c.getD i 0)
    obtain ⟨r, hr, hrl⟩ := ih i
    refine ⟨b ++ r, ?_, ?_⟩
    · simp only [encodeFrame]
      rw [hb, hr]
    · simp only [List.length_append, hbl, hrl, List.length_cons]
      ring

/-- n frames of interleaved samples have n · channels · m bytes. -/
theorem encodeUpTo_ok (enc : ℚ → Except AudioErr (List Nat)) (m : Nat)
    (henc : ∀ v : ℚ, ∃ b, enc v = .ok b ∧ b.length = m) (chans : List (List ℚ)) :
    ∀ n, ∃ buf, encodeUpTo enc chans n = .ok buf
      ∧ buf.length = n * (chans.length * m) := by
  intro n
  induction n with
  | zero => exact ⟨[], rfl, by simp⟩
  | succ k ih =>
    obtain ⟨init, hi, hil⟩ := ih
    obtain ⟨fr, hf, hfl⟩ := encodeFrame_ok enc m henc chans k
    refine ⟨init ++ fr, ?_, ?_⟩
    · simp only [encodeUpTo]
      rw [hi, hf]
    · simp only [List.length_append, hil, hfl]
      ring

/-- The frame count times the per-frame byte count equals the claim's
L · k · (bits/8) for channels of uniform length L. -/
theorem chanLength_mul (chans : List (List ℚ)) (L m : Nat)
    (hL : ∀ c ∈ chans, c.length = L) :
    chanLength chans * (chans.length * m) = L * chans.length * m := by
  cases chans with
  | nil => simp [chanLength]
  | cons c cs =>
    have : c.length = L := hL c (List.mem_cons_self _ _)
    simp only [chanLength, this, List.length_cons]
    ring

/-- A valid WriteChannels call on the WAVE writer succeeds and appends one
buffer of L · channels · (bits/8) bytes, advancing the uint32 counter by
its length. -/
theorem waveWriteChannels_ok (w : WaveFile) (fw : List Nat) (chans : List (List ℚ))
    (L : Nat) (hL : ∀ c ∈ chans, c.length = L)
    (hb : w.description.bitsPerSample = 8 ∨ w.description.bitsPerSample = 16
      ∨ w.description.bitsPerSample = 32)
    (hk : (chans.length : Int) = w.description.numChannels) :
    ∃ buf : List Nat,
      buf.length = L * chans.length * (Int.tdiv w.description.bitsPerSample 8).toNat
      ∧ w.WriteChannels fw chans
          = (.ok (), ⟨w.description, (w.bytesWritten + buf.length % 2 ^ 32) % 2 ^ 32⟩,
              fw ++ buf) := by
  obtain ⟨buf, hbuf, hbl⟩ := encodeUpTo_ok _ _ (waveFloat_shape w.description hb)
    chans (chanLength chans)
  refine ⟨buf, ?_, ?_⟩
  · rw [hbl, chanLength_mul chans L _ hL]
  · unfold WaveFile.WriteChannels writeChannelsBuffer
    rw [if_neg (by rw [hk]; exact fun h => h rfl), if_neg (by
      rw [sameLengths_of_all chans L hL]; exact fun h => nomatch h), hbuf]
    rfl

/-- A valid WriteChannels call on the AIFF writer succeeds and appends one
buffer of L · channels · (bits/8) bytes, advancing the int32 counter by
its wrapped length. -/
theorem aiffWriteChannels_ok (a : AiffFile) (fa : List Nat) (chans : List (List ℚ))
    (L : Nat) (hL : ∀ c ∈ chans, c.length = L)
    (hb : a.description.bitsPerSample = 8 ∨ a.description.bitsPerSample = 16
      ∨ a.description.bitsPerSample = 32)
    (hk : (chans.length : Int) = a.description.numChannels) :
    ∃ buf : List Nat,
      buf.length = L * chans.length * (Int.tdiv a.description.bitsPerSample 8).toNat
      ∧ a.WriteChannels fa chans
          = (.ok (), ⟨a.description, wrap32s (a.bytesWritten + wrap32s buf.length)⟩,
              fa ++ buf) := by
  obtain ⟨buf, hbuf, hbl⟩ := encodeUpTo_ok _ _ (aiffFloat_shape a.description hb)
    chans (chanLength chans)
  refine ⟨buf, ?_, ?_⟩
  · rw [hbl, chanLength_mul chans L _ hL]
  · unfold AiffFile.WriteChannels writeChannelsBuffer
    rw [if_neg (by rw [hk]; exact fun h => h rfl), if_neg (by
      rw [sameLengths_of_all chans L hL]; exact fun h => nomatch h), hbuf]
    rfl

/-- C5: after open with {2, 48000, 16}, one WriteChannels call with one
frame (0.5, -0.5) and a clean close, the data-chunk size field at offset
40 holds 4 and the RIFF size field at offset 4 holds 40 = totalBytes + 36. -/
theorem C5_end_to_end :
    (c5run.toOption.map fun f => (readU32LE f 40, readU32LE f 4)) = some (4, 40) := by
  obtain ⟨buf, hlen, heq⟩ := waveWriteChannels_ok ⟨⟨2, 48000, 16⟩, 0⟩
    (WaveFile.writeHeader ⟨2, 48000, 16⟩) [[1 / 2], [-(1 / 2)]] 1
    (by decide) (Or.inr (Or.inl rfl)) (by decide)
  have hlen4 : buf.length = 4 := by rw [hlen]; decide
  have hst : (0 + buf.length % 2 ^ 32) % 2 ^ 32 = 4 := by omega
  rw [hst] at heq
  have h0 : c5run = (match WaveFile.WriteChannels ⟨⟨2, 48000, 16⟩, 0⟩
      (WaveFile.writeHeader ⟨2, 48000, 16⟩) [[1 / 2], [-(1 / 2)]] with
    | (.error e, _, _) => .error e
    | (.ok _, w1, f1) =>
      match WaveFile.Close (fun _ => false) w1 f1 with
      | (.error e, _, _) => .error e
      | (.ok _, f2, _) => .ok f2) := rfl
  rw [h0, heq]
  show some (readU32LE (writeAt (writeAt (WaveFile.writeHeader ⟨2, 48000, 16⟩ ++ buf) 40
      (u32LE 4)) 4 (u32LE 40)) 40,
    readU32LE (writeAt (writeAt (WaveFile.writeHeader ⟨2, 48000, 16⟩ ++ buf) 40
      (u32LE 4)) 4 (u32LE 40)) 4) = some (4, 40)
  have hu4 : (u32LE 4).length = 4 := rfl
  have hu40 : (u32LE 40).length = 4 := rfl
  have hflen : (WaveFile.writeHeader ⟨2, 48000, 16⟩ ++ buf).length = 48 := by
    rw [List.length_append, waveHeader_length, hlen4]
  have hcond1 : 40 + (u32LE 4).length ≤ (WaveFile.writeHeader ⟨2, 48000, 16⟩ ++ buf).length := by
    omega
  have hl1 : (writeAt (WaveFile.writeHeader ⟨2, 48000, 16⟩ ++ buf) 40 (u32LE 4)).length
      = 48 := by
    rw [length_writeAt _ _ _ hcond1, hflen]
  have hr4 : readU32LE (writeAt (writeAt (WaveFile.writeHeader ⟨2, 48000, 16⟩ ++ buf) 40
      (u32LE 4)) 4 (u32LE 40)) 4 = 40 := by
    have := readU32LE_writeAt_le4 (writeAt (WaveFile.writeHeader ⟨2, 48000, 16⟩ ++ buf) 40
      (u32LE 4)) 4 (40 % 2 ^ 32) (by omega) (by omega)
    simpa [u32LE] using this
  have hr40 : readU32LE (writeAt (writeAt (WaveFile.writeHeader ⟨2, 48000, 16⟩ ++ buf) 40
      (u32LE 4)) 4 (u32LE 40)) 40 = 4 := by
    rw [readU32LE_writeAt_ge _ _ _ _ (by omega) (by omega)]
    have := readU32LE_writeAt_le4 (WaveFile.writeHeader ⟨2, 48000, 16⟩ ++ buf) 40
      (4 % 2 ^ 32) (by omega) (by omega)
    simpa [u32LE] using this
  rw [hr4, hr40]

/-- C4 witness: concrete states and files instantiating the amended
container-overhead theorem. -/
theorem C4_container_overhead_witness :
    readU32LE ((WaveFile.Close (fun _ => false) ⟨⟨1, 32000, 8⟩, 100⟩
        (List.replicate 44 0)).2.1) 4 = (100 + 36) % 2 ^ 32
    ∧ readU32BE ((AiffFile.Close (fun _ => false) ⟨⟨1, 32000, 8⟩, 100⟩
        (List.replicate 54 0)).2.1) 4 = (((100 : Int) + 46) % 2 ^ 32).toNat :=
  C4_container_overhead ⟨⟨1, 32000, 8⟩, 100⟩ ⟨⟨1, 32000, 8⟩, 100⟩
    (List.replicate 44 0) (List.replicate 54 0) (by decide) (by decide)

/-- C6: for both writers, WriteChannels fails with the channel-count
error when the number of supplied slices differs from the description,
and with the channel-length error when the count matches but the slices
have unequal lengths; in both cases the state and the file are returned
untouched, so zero bytes reach the file and the running total is
unchanged. -/
theorem C6_mismatch_checks (w : WaveFile) (a : AiffFile) (fw fa : List Nat)
    (chans : List (List ℚ)) :
    (((chans.length : Int) ≠ w.description.numChannels →
        w.WriteChannels fw chans = (.error .channelCountMismatch, w, fw))
      ∧ ((chans.length : Int) = w.description.numChannels →
          sameLengths chans = false →
          w.WriteChannels fw chans = (.error .channelLengthMismatch, w, fw)))
    ∧ (((chans.length : Int) ≠ a.description.numChannels →
        a.WriteChannels fa chans = (.error .channelCountMismatch, a, fa))
      ∧ ((chans.length : Int) = a.description.numChannels →
          sameLengths chans = false →
          a.WriteChannels fa chans = (.error .channelLengthMismatch, a, fa))) := by
  refine ⟨⟨?_, ?_⟩, ?_, ?_⟩
  · intro h
    unfold WaveFile.WriteChannels writeChannelsBuffer
    rw [if_pos h]
  · intro h1 h2
    unfold WaveFile.WriteChannels writeChannelsBuffer
    rw [if_neg (by rw [h1]; exact fun h => h rfl), if_pos h2]
  · intro h
    unfold AiffFile.WriteChannels writeChannelsBuffer
    rw [if_pos h]
  · intro h1 h2
    unfold AiffFile.WriteChannels writeChannelsBuffer
    rw [if_neg (by rw [h1]; exact fun h => h rfl), if_pos h2]

/-- C6 witness: a 2-channel description rejects one supplied channel with
the count error, and two channels of unequal length with the length
error, leaving state and file unchanged. -/
theorem C6_mismatch_checks_witness :
    WaveFile.WriteChannels ⟨⟨2, 48000, 16⟩, 0⟩ [] [[0]]
        = (.error .channelCountMismatch, ⟨⟨2, 48000, 16⟩, 0⟩, [])
    ∧ AiffFile.WriteChannels ⟨⟨2, 48000, 16⟩, 0⟩ [] [[0], [0, 0]]
        = (.error .channelLengthMismatch, ⟨⟨2, 48000, 16⟩, 0⟩, []) :=
  ⟨(C6_mismatch_checks ⟨⟨2, 48000, 16⟩, 0⟩ ⟨⟨2, 48000, 16⟩, 0⟩ [] [] [[0]]).1.1
      (by decide),
    (C6_mismatch_checks ⟨⟨2, 48000, 16⟩, 0⟩ ⟨⟨2, 48000, 16⟩, 0⟩ [] [] [[0], [0, 0]]).2.2
      (by decide) (by decide)⟩

/-- C7 counterexample: when the positioned write of the data-chunk size
fails, WAVE Close returns the I/O error but the file handle is NOT
released, contradicting the claim that it still is. -/
theorem C7_cex :
    WaveFile.Close (fun o => o == 40) ⟨⟨2, 48000, 16⟩, 4⟩ (List.replicate 44 0)
      = (.error .ioFailure, List.replicate 44 0, false) := rfl

/-- C7 amended: if any positioned header-patch write fails during close,
close returns the underlying I/O error and the file handle is NOT
released — both writers return before reaching the file-release step. -/
theorem C7_patch_failure_leaves_handle_open (fail : Nat → Bool) (w : WaveFile)
    (a : AiffFile) (fw fa : List Nat) :
    ((fail 40 = true ∨ fail 4 = true) →
      (WaveFile.Close fail w fw).1 = .error .ioFailure
        ∧ (WaveFile.Close fail w fw).2.2 = false)
    ∧ ((fail 42 = true ∨ fail 22 = true ∨ fail 4 = true) →
      (AiffFile.Close fail a fa).1 = .error .ioFailure
        ∧ (AiffFile.Close fail a fa).2.2 = false) := by
  constructor
  · intro h
    unfold WaveFile.Close
    rcases h with h | h
    · simp [h]
    · cases hf : fail 40 <;> simp [hf, h]
  · intro h
    unfold AiffFile.Close
    rcases h with h | h | h
    · simp [h]
    · cases hf : fail 42 <;> simp [hf, h]
    · cases hf : fail 42 <;> cases hg : fail 22 <;> simp [hf, hg, h]

/-- C7 witness: a failure injected at the RIFF-size patch offset makes
WAVE Close error out with the handle still open. -/
theorem C7_patch_failure_witness :
    (WaveFile.Close (fun o => o == 4) ⟨⟨2, 48000, 16⟩, 0⟩ (List.replicate 44 0)).1
        = .error .ioFailure
    ∧ (WaveFile.Close (fun o => o == 4) ⟨⟨2, 48000, 16⟩, 0⟩
        (List.replicate 44 0)).2.2 = false :=
  (C7_patch_failure_leaves_handle_open (fun o => o == 4) ⟨⟨2, 48000, 16⟩, 0⟩
    ⟨⟨2, 48000, 16⟩, 0⟩ (List.replicate 44 0) []).1 (Or.inr rfl)

/-- C8: AIFF Open succeeds in emitting the header exactly for the five
standard sample rates, each encoded through the fixed 10-byte (80-bit)
lookup table, and fails with the unsupported-sample-rate error for every
other rate value. -/
theorem C8_open_restricted_to_table_rates (desc : AudioDescription) :
    ((AiffFile.Open desc).isOk = true ↔
      desc.sampleRate = 32000 ∨ desc.sampleRate = 44100 ∨ desc.sampleRate = 48000
        ∨ desc.sampleRate = 96000 ∨ desc.sampleRate = 192000)
    ∧ (¬ (desc.sampleRate = 32000 ∨ desc.sampleRate = 44100 ∨ desc.sampleRate = 48000
        ∨ desc.sampleRate = 96000 ∨ desc.sampleRate = 192000) →
      AiffFile.Open desc = .error .unsupportedSampleRate)
    ∧ (desc.sampleRate = 32000 →
        AiffFile.convertSampleRate desc = .ok [64, 13, 250, 0, 0, 0, 0, 0, 0, 0])
    ∧ (desc.sampleRate = 44100 →
        AiffFile.convertSampleRate desc = .ok [64, 14, 172, 68, 0, 0, 0, 0, 0, 0])
    ∧ (desc.sampleRate = 48000 →
        AiffFile.convertSampleRate desc = .ok [64, 14, 187, 128, 0, 0, 0, 0, 0, 0])
    ∧ (desc.sampleRate = 96000 →
        AiffFile.convertSampleRate desc = .ok [64, 15, 187, 128, 0, 0, 0, 0, 0, 0])
    ∧ (desc.sampleRate = 192000 →
        AiffFile.convertSampleRate desc = .ok [64, 16, 187, 128, 0, 0, 0, 0, 0, 0]) := by
  refine ⟨aiffOpen_isOk desc, aiffOpen_err desc, ?_, ?_, ?_, ?_, ?_⟩ <;>
    intro h <;> simp [AiffFile.convertSampleRate, h]

/-- C8 witness: 44100 opens with the table bytes; 44000 is rejected. -/
theorem C8_open_restricted_witness :
    (AiffFile.Open ⟨2, 44100, 16⟩).isOk = true
    ∧ AiffFile.convertSampleRate ⟨2, 44100, 16⟩ = .ok [64, 14, 172, 68, 0, 0, 0, 0, 0, 0]
    ∧ AiffFile.Open ⟨2, 44000, 16⟩ = .error .unsupportedSampleRate :=
  ⟨(C8_open_restricted_to_table_rates ⟨2, 44100, 16⟩).1.mpr (Or.inr (Or.inl rfl)),
    (C8_open_restricted_to_table_rates ⟨2, 44100, 16⟩).2.2.2.1 rfl,
    (C8_open_restricted_to_table_rates ⟨2, 44000, 16⟩).2.1 (by decide)⟩

/-- C9: the AIFF writer accumulates its byte total in a wrapping signed
32-bit counter (WriteBytes adds int32(n)), while the WAVE writer uses an
unsigned 32-bit counter; for every write sequence whose total T satisfies
2^31 ≤ T < 2^32 the AIFF counter ends at T - 2^32, a negative value, the
container size patched at close is computed from that wrapped value, and
the WAVE counter ends at the nonnegative T mod 2^32 — so the effective
AIFF limit is 2 GiB rather than 4 GiB. -/
theorem C9_signed_counter_wrap (a : AiffFile) (w : WaveFile) (file data : List Nat)
    (d : AudioDescription) (sizes : List Nat)
    (h1 : 2 ^ 31 ≤ sizes.sum) (h2 : sizes.sum < 2 ^ 32) :
    (AiffFile.WriteBytes a file data).1.bytesWritten
        = wrap32s (a.bytesWritten + wrap32s data.length)
    ∧ (WaveFile.WriteBytes w file data).1.bytesWritten
        = (w.bytesWritten + data.length % 2 ^ 32) % 2 ^ 32
    ∧ aiffCounterRun sizes = (sizes.sum : Int) - 2 ^ 32
    ∧ aiffCounterRun sizes < 0
    ∧ waveCounterRun sizes = sizes.sum % 2 ^ 32
    ∧ AiffFile.closeContainerChunkBytes ⟨d, aiffCounterRun sizes⟩
        = be4 ((sizes.sum + 46) % 2 ^ 32) := by
  have hrun : aiffCounterRun sizes = wrap32s ((sizes.sum : Int)) := by
    unfold aiffCounterRun
    rw [show (0 : Int) = wrap32s 0 by decide, aiffFold]
    norm_num
  have h3 : aiffCounterRun sizes = (sizes.sum : Int) - 2 ^ 32 := by
    rw [hrun]; unfold wrap32s; omega
  refine ⟨rfl, rfl, h3, by rw [h3]; omega, ?_, ?_⟩
  · have hw := waveFold sizes 0
    simpa [waveCounterRun] using hw
  · unfold AiffFile.closeContainerChunkBytes i32BE
    rw [toUnsigned4_wrap32s]
    congr 1
    show ((aiffCounterRun sizes + 46) % 2 ^ 32).toNat = (sizes.sum + 46) % 2 ^ 32
    rw [h3]
    omega

/-- C9 witness: a single write of 2^31 bytes drives the AIFF counter
negative. -/
theorem C9_signed_counter_wrap_witness : aiffCounterRun [2 ^ 31] < 0 :=
  (C9_signed_counter_wrap ⟨⟨2, 48000, 16⟩, 0⟩ ⟨⟨2, 48000, 16⟩, 0⟩ [] []
    ⟨2, 48000, 16⟩ [2 ^ 31] (by decide) (by decide)).2.2.2.1

/-- C10: a WriteChannels call with the right number k of channel slices,
each of length L, at a supported bit depth b appends exactly
L · k · (b/8) bytes to the file and advances the running total by exactly
that amount (the full write is assumed and the totals stay inside the
counters' ranges). -/
theorem C10_write_amount (chans : List (List ℚ)) (L : Nat)
    (hL : ∀ c ∈ chans, c.length = L) :
    (∀ (w : WaveFile) (fw : List Nat),
      (w.description.bitsPerSample = 8 ∨ w.description.bitsPerSample = 16
        ∨ w.description.bitsPerSample = 32) →
      (chans.length : Int) = w.description.numChannels →
      w.bytesWritten + L * chans.length * (Int.tdiv w.description.bitsPerSample 8).toNat
          < 2 ^ 32 →
      ∃ buf : List Nat,
        buf.length = L * chans.length * (Int.tdiv w.description.bitsPerSample 8).toNat
        ∧ w.WriteChannels fw chans
            = (.ok (), ⟨w.description, w.bytesWritten + buf.length⟩, fw ++ buf))
    ∧ (∀ (a : AiffFile) (fa : List Nat),
      (a.description.bitsPerSample = 8 ∨ a.description.bitsPerSample = 16
        ∨ a.description.bitsPerSample = 32) →
      (chans.length : Int) = a.description.numChannels →
      0 ≤ a.bytesWritten →
      a.bytesWritten
          + (Nat.cast (L * chans.length * (Int.tdiv a.description.bitsPerSample 8).toNat)
              : Int) < 2 ^ 31 →
      ∃ buf : List Nat,
        buf.length = L * chans.length * (Int.tdiv a.description.bitsPerSample 8).toNat
        ∧ a.WriteChannels fa chans
            = (.ok (), ⟨a.description, a.bytesWritten + (buf.length : Int)⟩,
                fa ++ buf)) := by
  constructor
  · intro w fw hb hk hbound
    obtain ⟨buf, hlen, heq⟩ := waveWriteChannels_ok w fw chans L hL hb hk
    refine ⟨buf, hlen, ?_⟩
    rw [heq]
    have hmod : (w.bytesWritten + buf.length % 2 ^ 32) % 2 ^ 32
        = w.bytesWritten + buf.length := by omega
    rw [hmod]
  · intro a fa hb hk h0 hbound
    obtain ⟨buf, hlen, heq⟩ := aiffWriteChannels_ok a fa chans L hL hb hk
    refine ⟨buf, hlen, ?_⟩
    rw [heq]
    have hmod : wrap32s (a.bytesWritten + wrap32s buf.length)
        = a.bytesWritten + (buf.length : Int) := by
      unfold wrap32s
      omega
    rw [hmod]

/-- C10 witness: one stereo 16-bit frame per channel appends 4 bytes and
advances the counter to 4. -/
theorem C10_write_amount_witness :
    (WaveFile.WriteChannels ⟨⟨2, 48000, 16⟩, 0⟩ [] [[1 / 2], [1 / 2]]).1 = .ok ()
    ∧ ((WaveFile.WriteChannels ⟨⟨2, 48000, 16⟩, 0⟩ [] [[1 / 2], [1 / 2]]).2.1).bytesWritten
        = 4
    ∧ ((WaveFile.WriteChannels ⟨⟨2, 48000, 16⟩, 0⟩ [] [[1 / 2], [1 / 2]]).2.2).length
        = 4 := by
  obtain ⟨buf, hlen, heq⟩ := (C10_write_amount [[1 / 2], [1 / 2]] 1 (by decide)).1
    ⟨⟨2, 48000, 16⟩, 0⟩ [] (Or.inr (Or.inl rfl)) (by decide) (by decide)
  have hlen4 : buf.length = 4 := by rw [hlen]; decide
  rw [heq]
  refine ⟨rfl, ?_, ?_⟩
  · show 0 + buf.length = 4
    omega
  · show ([] ++ buf).length = 4
    simpa using hlen4
